import Mathlib

/-!
# Verification of the flare on-the-fly (OTF) learning engine

Shallow embedding, in Lean 4, of the decision logic of the flare OTF
molecular-dynamics engine:

* `otf_engine/otf.py` — the `OTF` class: the run loop, the uncertainty
  policy `is_std_in_bound` (hard-coded trust threshold `.1`), the
  Störmer–Verlet position update `update_positions`, and the
  oracle-query-and-retrain step `run_and_train`;
* `flare/md.py` — `update_positions` and `calculate_temperature`;
* `flare/dft_interface/pyscf_util.py` — `parse_dft_input`.

Real numbers are modelled as rationals (`ℚ`).  The only floating-point
behaviours the source relies on beyond field arithmetic are
(a) not-a-number (NaN) entries in the `stds` array, modelled by
`FVal := Option ℚ` with `none` standing for NaN (every ordered comparison
against NaN is false, `np.nanmax` skips NaN, `np.max` propagates it), and
(b) division of a float by zero, which yields a non-finite value
(`inf`/`nan`) instead of raising; where a claim turns on that behaviour the
division is modelled by `fdiv`, returning `none` exactly when the divisor
is zero.

External collaborators (the Gaussian-process surrogate, the DFT oracle, the
chemical-environment descriptor) are out of the engine's scope and appear
as parameters of the run-loop model.  Logging (`write_to_output`,
`write_config`) has no influence on the decision logic and is not modelled.
-/

namespace Flare

/-- A 3-vector of rationals: one row of a numpy `(N, 3)` array. -/
abbrev Vec3 : Type := ℚ × ℚ × ℚ

/-- Componentwise vector addition. -/
def vadd (a b : Vec3) : Vec3 := (a.1 + b.1, a.2.1 + b.2.1, a.2.2 + b.2.2)

/-- Componentwise vector subtraction. -/
def vsub (a b : Vec3) : Vec3 := (a.1 - b.1, a.2.1 - b.2.1, a.2.2 - b.2.2)

/-- Scalar times vector, componentwise. -/
def vscale (c : ℚ) (a : Vec3) : Vec3 := (c * a.1, c * a.2.1, c * a.2.2)

/-- Vector divided by a scalar, componentwise. -/
def vdivs (a : Vec3) (c : ℚ) : Vec3 := (a.1 / c, a.2.1 / c, a.2.2 / c)

/-- The zero vector. -/
def vzero : Vec3 := (0, 0, 0)

/-- Component selector for a 3-vector: `comp v j` is `v[j]`. -/
def comp (v : Vec3) : Fin 3 → ℚ
  | 0 => v.1
  | 1 => v.2.1
  | 2 => v.2.2

/-- A float value that may be NaN: `none` models NaN, `some q` a finite
value.  (Infinities never arise in the modelled code paths for `stds`.) -/
abbrev FVal := Option ℚ

/-- One row of the `stds` array: three per-component uncertainty floats. -/
abbrev FVal3 := FVal × FVal × FVal

/-- IEEE-style `x >= t` for a possibly-NaN `x` against a finite threshold:
any comparison with NaN is false. -/
def fge (x : FVal) (t : ℚ) : Bool :=
  match x with
  | none => false
  | some q => decide (t ≤ q)

/-- `np.nanmax`: maximum ignoring NaN entries; an all-NaN (or empty) list
yields NaN.  (On an empty array numpy raises instead; the engine only
applies it to the nonempty `stds` array.) -/
def nanmax (xs : List FVal) : FVal :=
  match xs.filterMap id with
  | [] => none
  | y :: ys => some (ys.foldl max y)

/-- `np.max`: NaN-propagating maximum — if any entry is NaN the result is
NaN, otherwise the ordinary maximum. -/
def npmax (xs : List FVal) : FVal :=
  if xs.any (fun x => x.isNone) then none
  else
    match xs.filterMap id with
    | [] => none
    | y :: ys => some (ys.foldl max y)

/-- The three entries of one `stds` row, in component order. -/
def row_list (r : FVal3) : List FVal := [r.1, r.2.1, r.2.2]

/-- All entries of the `stds` array, row by row: the flattening `np.nanmax`
sees when applied to the whole `(N, 3)` array. -/
def all_entries (stds : List FVal3) : List FVal := (stds.map row_list).flatten

/-- The trust threshold, hard-coded as `.1` in `OTF.is_std_in_bound`. -/
def threshold : ℚ := 1 / 10

/-- The `enumerate(stds)` loop of `OTF.is_std_in_bound`: collect, with a
running index, the indices of atoms whose per-row `np.max` compares `>=`
the threshold. -/
def problem_atoms_aux : ℕ → List FVal3 → List ℕ
  | _, [] => []
  | i, r :: rs =>
    if fge (npmax (row_list r)) threshold then i :: problem_atoms_aux (i + 1) rs
    else problem_atoms_aux (i + 1) rs

/-- `OTF.is_std_in_bound` (otf.py, lines 213–228): if
`np.nanmax(stds) >= .1` return `(False, problem_atoms)`, the problem atoms
being those whose own `np.max(std) >= .1`; otherwise return `(True, [])`.
A pure function of `stds` — the Python method only reads the structure. -/
def is_std_in_bound (stds : List FVal3) : Bool × List ℕ :=
  if fge (nanmax (all_entries stds)) threshold then
    (false, problem_atoms_aux 0 stds)
  else
    (true, [])

/-- NaN-free row builder: a row of three finite stds. -/
def qrow (r : Vec3) : FVal3 := (some r.1, some r.2.1, some r.2.2)

/-- Maximum of the three components of a NaN-free row. -/
def max3 (r : Vec3) : ℚ := max r.1 (max r.2.1 r.2.2)

/-- The `Structure` data entity: `N` atoms with positions, previous
positions (one step back), species labels (called `species` in
`otf_engine/struc.py` and `species_labels` in the `flare` package),
a species-to-mass mapping, per-atom forces and per-atom uncertainty rows.
All per-atom sequences have the same fixed length `n` (the invariant
`nat = N` of the data model); they are represented as functions from
`Fin n`.  The lattice `cell` plays no role in the modelled logic. -/
structure Structure (n : ℕ) where
  positions : Fin n → Vec3
  prev_positions : Fin n → Vec3
  species : Fin n → String
  mass_dict : String → ℚ
  forces : Fin n → Vec3
  stds : Fin n → FVal3

/-- `OTF.is_std_in_bound` applied to the live structure: the Python method
reads `self.structure.stds` (row-major, atom index order). -/
def is_std_in_bound_struct {n : ℕ} (s : Structure n) : Bool × List ℕ :=
  is_std_in_bound (List.ofFn s.stds)

/-- `OTF.update_positions` (otf.py, lines 150–167): for every atom `i`,
`positions[i] := 2 * pos - pre_pos + dtdt * forces / mass` with
`dtdt = dt ** 2` and `mass = mass_dict[species[i]]`, and then
`prev_positions[i] :=` the value `positions[i]` held before the update
(a copy is taken first, so the whole update reads only pre-call values).
`species`, `forces`, `stds` and `mass_dict` are untouched. -/
def update_positions {n : ℕ} (dt : ℚ) (s : Structure n) : Structure n :=
  let dtdt := dt ^ 2
  { s with
    positions := fun i =>
      vadd (vsub (vscale 2 (s.positions i)) (s.prev_positions i))
        (vdivs (vscale dtdt (s.forces i)) (s.mass_dict (s.species i)))
    prev_positions := fun i => s.positions i }

/-- `update_positions` of `flare/md.py` (lines 6–17): same Verlet formula,
but it returns the array of new positions without mutating the structure.
The `noa` argument only sizes the output buffer `np.zeros((noa, 3))`, which
the loop over `prev_positions` then fills completely in the only intended
use `noa = N`; it is dropped here. -/
def md_update_positions {n : ℕ} (dt : ℚ) (s : Structure n) : Fin n → Vec3 :=
  let dtdt := dt ^ 2
  fun i =>
    vadd (vsub (vscale 2 (s.positions i)) (s.prev_positions i))
      (vdivs (vscale dtdt (s.forces i)) (s.mass_dict (s.species i)))

/-- The Boltzmann constant used by `calculate_temperature`:
`kb = 0.0000861733034`. -/
def kb : ℚ := 861733034 / 10 ^ 13

/-- Float division, modelling that a numpy float divided by `0.0` is a
non-finite value (`inf` or `nan`, with a warning) rather than an error:
`none` stands for a non-finite result. -/
def fdiv (a b : ℚ) : Option ℚ := if b = 0 then none else some (a / b)

/-- Kinetic-energy contribution of one atom of mass `m` with velocity `v`:
the inner `for j in range(3)` loop of `calculate_temperature`. -/
def atom_KE (m : ℚ) (v : Vec3) : ℚ :=
  0.5 * m * v.1 * v.1 + 0.5 * m * v.2.1 * v.2.1 + 0.5 * m * v.2.2 * v.2.2

/-- `calculate_temperature` (flare/md.py, lines 20–38): central-difference
velocities `(new_pos - prev_positions) / (2 * dt)`, total kinetic energy
`KE = Σ_i Σ_j 0.5 * mass_i * v_ij²`, and
`temperature = 2 * KE / ((3 * noa - 3) * kb)`.  The temperature division is
the one spot where a zero divisor is reachable (`noa = 1`), so it is
modelled with `fdiv`; the function reads the structure and mutates
nothing. -/
def calculate_temperature {n : ℕ} (new_pos : Fin n → Vec3) (s : Structure n)
    (dt : ℚ) (noa : ℕ) : ℚ × Option ℚ × (Fin n → Vec3) :=
  let velocities : Fin n → Vec3 := fun i =>
    vdivs (vsub (new_pos i) (s.prev_positions i)) (2 * dt)
  let KE : ℚ :=
    (List.ofFn fun i => atom_KE (s.mass_dict (s.species i)) (velocities i)).sum
  let temperature := fdiv (2 * KE) ((3 * (noa : ℚ) - 3) * kb)
  (KE, temperature, velocities)

/-! ## The OTF run loop

The engine's external collaborators are out of scope (spec §1): the
Gaussian-process surrogate is consumed only through `gp.predict` /
`gp.update_db` / `gp.train`, and the oracle only through `run_espresso`.
They are modelled as a bundle of functions over an abstract model-state
type `G`.  `predict` returns, per atom and Cartesian component, the pair
that `predict_on_structure` stores: the force mean `float(force)` and the
uncertainty `np.sqrt(np.absolute(var))` (the square root is applied inside
the collaborator, whose numerics are out of scope).  The punch-out mode is
disabled (`punchout_d is None`, the configuration of the modelled
scenarios), so `run_and_train` always trains on the full structure. -/

/-- The collaborators of the `OTF` engine, over a surrogate-model state
type `G`. -/
structure Collab (n : ℕ) (G : Type) where
  predict : G → Structure n → Fin n → Fin 3 → ℚ × FVal
  update_db : G → Structure n → (Fin n → Vec3) → G
  train : G → G
  run_espresso : Structure n → Fin n → Vec3

/-- The run-time state owned by an `OTF` instance: the step counter
`curr_step`, the live structure, the surrogate-model state, and a count of
`run_and_train` invocations (oracle queries), kept to state how often the
oracle is consulted. -/
structure OTFState (n : ℕ) (G : Type) where
  curr_step : ℕ
  struc : Structure n
  gp : G
  nOracle : ℕ

/-- `OTF.predict_on_structure` (otf.py, lines 90–100): for every atom and
component query the surrogate and overwrite `forces` and `stds`; nothing
else changes. -/
def predict_on_structure {n : ℕ} {G : Type} (C : Collab n G) (g : G)
    (s : Structure n) : Structure n :=
  { s with
    forces := fun i =>
      ((C.predict g s i 0).1, (C.predict g s i 1).1, (C.predict g s i 2).1)
    stds := fun i =>
      ((C.predict g s i 0).2, (C.predict g s i 1).2, (C.predict g s i 2).2) }

/-- `OTF.run_and_train` (otf.py, lines 102–148) with punch-out disabled:
`train_structure = structure`, run the oracle on it, `gp.update_db` with
the resulting forces, `gp.train()`.  The structure and `curr_step` are not
touched; the oracle-query counter goes up by one. -/
def run_and_train {n : ℕ} {G : Type} (C : Collab n G) (st : OTFState n G) :
    OTFState n G :=
  let forces := C.run_espresso st.struc
  { st with
    gp := C.train (C.update_db st.gp st.struc forces)
    nOracle := st.nOracle + 1 }

/-- One iteration of the `while self.curr_step < self.Nsteps` body of
`OTF.run` (otf.py, lines 69–88): predict, check the uncertainty bound;
out of bound → Correct (`run_and_train`, then `continue`); in bound →
Integrate (`update_positions`, `curr_step += 1`).  `write_config` only
logs and is not modelled. -/
def otf_step {n : ℕ} {G : Type} (C : Collab n G) (dt : ℚ)
    (st : OTFState n G) : OTFState n G :=
  let s1 := predict_on_structure C st.gp st.struc
  let res := is_std_in_bound_struct s1
  if res.1 then
    { st with struc := update_positions dt s1, curr_step := st.curr_step + 1 }
  else
    run_and_train C { st with struc := s1 }

/-- The main loop of `OTF.run`, with explicit fuel: the source loop has no
other bound, so `run_loop fuel` performs at most `fuel` iterations and a
result independent of any large enough fuel is a terminating run. -/
def run_loop {n : ℕ} {G : Type} (C : Collab n G) (dt : ℚ) (Nsteps : ℕ) :
    ℕ → OTFState n G → OTFState n G
  | 0, st => st
  | fuel + 1, st =>
    if st.curr_step < Nsteps then run_loop C dt Nsteps fuel (otf_step C dt st)
    else st

/-- `OTF.run` (otf.py, lines 59–88): bootstrap with one unconditional
`run_and_train` on the initial structure, then the main loop. -/
def run {n : ℕ} {G : Type} (C : Collab n G) (dt : ℚ) (Nsteps : ℕ)
    (fuel : ℕ) (st : OTFState n G) : OTFState n G :=
  run_loop C dt Nsteps fuel (run_and_train C st)

/-! ## The PySCF oracle input parser -/

/-- The assert chain closing `parse_dft_input`
(flare/dft_interface/pyscf_util.py, lines 68–70): three independent
preconditions checked in order, each with its own diagnostic. -/
def check_input_asserts (cell_index positions_index nat : Option ℕ) :
    Except String Unit :=
  if cell_index = none then Except.error "Failed to find cell in input file"
  else if positions_index = none then
    Except.error "Failed to find positions in input"
  else if nat = none then
    Except.error "Failed to find number of atoms in input"
  else Except.ok ()

/-- The locator part of `parse_dft_input` (lines 59–66): `cell_index`,
`positions_index` and `nat` start as `None`; the body of the scanning loop
is the unimplemented `TODO: PySCF input parser` and only re-assigns
`cell_index = None`, so nothing is ever located in any input. -/
def locate_input (lines : List String) : Option ℕ × Option ℕ × Option ℕ :=
  (lines.foldl (fun _ _ => none) none, none, none)

/-- `parse_dft_input` (pyscf_util.py, lines 41–70): scan the input lines,
then assert that the cell block, the positions block and the atom count
were found.  On a failed assert the function raises — no
positions/species/cell/masses value is produced (and indeed the stub has
no `return` at all, so the success payload is `Unit`). -/
def parse_dft_input (lines : List String) : Except String Unit :=
  let loc := locate_input lines
  check_input_asserts loc.1 loc.2.1 loc.2.2

/-- The engine constructor's use of the parser (otf.py, lines 45–49): the
oracle input template is parsed inside `OTF.__init__`, before `run` can be
called, and the run state is built only from a successful parse.  `mk`
abstracts the construction of the initial state from the parse result. -/
def otf_init {n : ℕ} {G : Type} (lines : List String)
    (mk : Unit → OTFState n G) : Except String (OTFState n G) :=
  (parse_dft_input lines).map mk

/-! ## Concrete instances

A small 2-atom configuration used to instantiate the theorems below, and
the two constant surrogates of the end-to-end scenarios: one that always
reports zero uncertainty and zero force, one that always reports
uncertainty `1.0`. -/

/-- Initial positions of the 2-atom test system. -/
def init_positions : Fin 2 → Vec3 := fun i =>
  if i.val = 0 then (0, 0, 0) else (1, 1, 1)

/-- A 2-atom structure at rest: `prev_positions` equal to `positions`,
zero forces, unit masses, zero uncertainties. -/
def init_struc : Structure 2 where
  positions := init_positions
  prev_positions := init_positions
  species := fun _ => "H"
  mass_dict := fun _ => 1
  forces := fun _ => vzero
  stds := fun _ => (some 0, some 0, some 0)

/-- Alias used by witnesses that only need some concrete structure. -/
def witness_struc : Structure 2 := init_struc

/-- Initial run state: step 0, no oracle query yet, trivial surrogate
model state. -/
def init_state : OTFState 2 Unit where
  curr_step := 0
  struc := init_struc
  gp := ()
  nOracle := 0

/-- A surrogate that always reports force `0` and standard deviation `0`,
over an oracle that always returns zero forces; training is a no-op on
the trivial model state. -/
def zero_surrogate : Collab 2 Unit where
  predict := fun _ _ _ _ => (0, some 0)
  update_db := fun g _ _ => g
  train := fun g => g
  run_espresso := fun _ _ => vzero

/-- A surrogate that always reports standard deviation `1.0` (above the
trust threshold `0.1`) on every atom and component. -/
def high_surrogate : Collab 2 Unit where
  predict := fun _ _ _ _ => (0, some 1)
  update_db := fun g _ _ => g
  train := fun g => g
  run_espresso := fun _ _ => vzero

/-- Invariant of the zero-force scenario: the structure is still at the
initial rest configuration (species, masses and both position arrays) and
exactly one oracle query — the bootstrap — has been made. -/
def rest_inv (st : OTFState 2 Unit) : Prop :=
  (∀ i, st.struc.positions i = init_positions i)
  ∧ (∀ i, st.struc.prev_positions i = init_positions i)
  ∧ st.struc.species = init_struc.species
  ∧ st.struc.mass_dict = init_struc.mass_dict
  ∧ st.nOracle = 1

/-! ## Helper lemmas -/

/-- A left fold of `max` stays below `t` iff the seed and every element
do. -/
lemma foldl_max_lt_iff (t : ℚ) :
    ∀ (xs : List ℚ) (y : ℚ), xs.foldl max y < t ↔ y < t ∧ ∀ x ∈ xs, x < t := by
  intro xs
  induction xs with
  | nil => simp
  | cons a l ih =>
    intro y
    rw [List.foldl_cons, ih (max y a)]
    simp only [max_lt_iff, List.mem_cons]
    constructor
    · rintro ⟨⟨hy, ha⟩, hl⟩
      exact ⟨hy, fun x hx => hx.elim (fun h => h ▸ ha) (hl x)⟩
    · rintro ⟨hy, hl⟩
      exact ⟨⟨hy, hl a (Or.inl rfl)⟩, fun x hx => hl x (Or.inr hx)⟩

/-- `np.nanmax(xs) >= t` is false exactly when every finite (non-NaN)
entry of `xs` is strictly below `t` — in particular it is false when all
entries are NaN. -/
lemma fge_nanmax_eq_false_iff (t : ℚ) (xs : List FVal) :
    fge (nanmax xs) t = false ↔ ∀ q : ℚ, some q ∈ xs → q < t := by
  cases h : xs.filterMap id with
  | nil =>
    simp only [nanmax, h, fge, true_iff]
    intro q hq
    exact absurd (h ▸ List.mem_filterMap.mpr ⟨some q, hq, rfl⟩)
      (List.not_mem_nil q)
  | cons y ys =>
    have hmem : ∀ q : ℚ, q ∈ y :: ys ↔ some q ∈ xs := by
      intro q
      rw [← h, List.mem_filterMap]
      constructor
      · rintro ⟨a, ha, rfl⟩; exact ha
      · intro hq; exact ⟨some q, hq, rfl⟩
    simp only [nanmax, h, fge, decide_eq_false_iff_not, not_le,
      foldl_max_lt_iff]
    constructor
    · rintro ⟨hy, hys⟩ q hq
      rcases List.mem_cons.mp ((hmem q).mpr hq) with rfl | h'
      · exact hy
      · exact hys q h'
    · intro hall
      exact ⟨hall y ((hmem y).mp (List.mem_cons_self y ys)),
        fun x hx => hall x ((hmem x).mp (List.mem_cons_of_mem y hx))⟩

/-- `np.max` over a NaN-free row of three is the row maximum. -/
lemma npmax_qrow (r : Vec3) : npmax (row_list (qrow r)) = some (max3 r) := by
  simp only [npmax, row_list, qrow, List.any_cons, List.any_nil,
    Option.isNone_some, Bool.or_self, Bool.or_false, Bool.false_eq_true,
    if_false, List.filterMap_cons, id, List.filterMap_nil, List.foldl_cons,
    List.foldl_nil, max3, Option.some.injEq]
  rw [max_assoc]

/-- `getD` through `map qrow`, inside the array bounds. -/
lemma getD_map_qrow :
    ∀ (l : List Vec3) (k : ℕ), k < l.length →
      (l.map qrow).getD k (none, none, none) = qrow (l.getD k vzero) := by
  intro l
  induction l with
  | nil => intro k hk; simp at hk
  | cons a t ih =>
    intro k hk
    cases k with
    | zero => simp
    | succ k =>
      simp only [List.map_cons, List.getD_cons_succ]
      exact ih k (by simpa using hk)

/-- The `enumerate` loop collecting problem atoms, started at index `i`,
produces the ascending indices (shifted by `i`) of the rows whose `np.max`
compares `>=` the threshold. -/
lemma problem_atoms_aux_eq (l : List FVal3) :
    ∀ i : ℕ,
      problem_atoms_aux i l
        = ((List.range l.length).filter fun k =>
            fge (npmax (row_list (l.getD k (none, none, none)))) threshold).map
            (· + i) := by
  induction l with
  | nil => intro i; simp [problem_atoms_aux]
  | cons r rs ih =>
    intro i
    have hmap : ∀ X : List ℕ,
        (X.map Nat.succ).map (· + i) = X.map (· + (i + 1)) := by
      intro X
      rw [List.map_map]
      refine List.map_congr_left ?_
      intro k _
      simp only [Function.comp_apply]
      omega
    rw [problem_atoms_aux, ih (i + 1), List.length_cons,
      List.range_succ_eq_map, List.filter_cons]
    simp only [List.getD_cons_zero, List.getD_cons_succ, List.filter_map,
      Function.comp_def]
    by_cases hr : fge (npmax (row_list r)) threshold = true
    · simp only [hr, if_true, List.map_cons, Nat.zero_add]
      rw [← hmap ((List.range rs.length).filter fun k =>
        fge (npmax (row_list (rs.getD k (none, none, none)))) threshold)]
    · simp only [hr, Bool.false_eq_true, if_false]
      rw [← hmap ((List.range rs.length).filter fun k =>
        fge (npmax (row_list (rs.getD k (none, none, none)))) threshold)]

/-- The problem-atom list of `is_std_in_bound`, as the filtered index
range. -/
lemma problem_atoms_aux_zero (l : List FVal3) :
    problem_atoms_aux 0 l
      = (List.range l.length).filter fun k =>
          fge (npmax (row_list (l.getD k (none, none, none)))) threshold := by
  simpa using problem_atoms_aux_eq l 0

/-- One Verlet update with zero force returns to the same position, for
any mass and timestep. -/
lemma verlet_fix (a : Vec3) (d m : ℚ) :
    vadd (vsub (vscale 2 a) a) (vdivs (vscale d vzero) m) = a := by
  obtain ⟨x, y, z⟩ := a
  simp only [vadd, vsub, vscale, vdivs, vzero, mul_zero, zero_div,
    add_zero, Prod.mk.injEq]
  refine ⟨by ring, by ring, by ring⟩

/-- The scanning loop of `parse_dft_input` leaves `cell_index = None` on
every input. -/
lemma locate_input_cell_none (lines : List String) :
    (locate_input lines).1 = none := by
  show lines.foldl (fun _ _ => none) none = none
  induction lines with
  | nil => rfl
  | cons a t ih => exact ih

/-- The finite entries of a NaN-free `stds` array are exactly the
components of its rows. -/
lemma mem_all_entries_qrow (stds : List Vec3) (q : ℚ) :
    some q ∈ all_entries (stds.map qrow) ↔
      ∃ r ∈ stds, q = r.1 ∨ q = r.2.1 ∨ q = r.2.2 := by
  simp only [all_entries, List.map_map, List.mem_flatten, List.mem_map,
    Function.comp_def, row_list, qrow, List.mem_cons, List.not_mem_nil,
    or_false, Option.some.injEq]
  constructor
  · rintro ⟨l, ⟨r, hr, rfl⟩, hq⟩
    simp only [List.mem_cons, List.not_mem_nil, or_false,
      Option.some.injEq] at hq
    exact ⟨r, hr, hq⟩
  · rintro ⟨r, hr, hc⟩
    refine ⟨[some r.1, some r.2.1, some r.2.2], ⟨r, hr, rfl⟩, ?_⟩
    simp only [List.mem_cons, List.not_mem_nil, or_false, Option.some.injEq]
    exact hc

/-- A row maximum is below `t` iff all three components are. -/
lemma max3_lt_iff (r : Vec3) (t : ℚ) :
    max3 r < t ↔ r.1 < t ∧ r.2.1 < t ∧ r.2.2 < t := by
  rw [max3, max_lt_iff, max_lt_iff]

/-- The overall `nanmax`-check of a NaN-free array is false exactly when
every row maximum is strictly below the threshold. -/
lemma fge_nanmax_qrow_iff (stds : List Vec3) :
    fge (nanmax (all_entries (stds.map qrow))) threshold = false
      ↔ ∀ r ∈ stds, max3 r < threshold := by
  rw [fge_nanmax_eq_false_iff]
  constructor
  · intro hall r hr
    rw [max3_lt_iff]
    exact ⟨hall r.1 ((mem_all_entries_qrow stds r.1).mpr ⟨r, hr, Or.inl rfl⟩),
      hall r.2.1 ((mem_all_entries_qrow stds r.2.1).mpr
        ⟨r, hr, Or.inr (Or.inl rfl)⟩),
      hall r.2.2 ((mem_all_entries_qrow stds r.2.2).mpr
        ⟨r, hr, Or.inr (Or.inr rfl)⟩)⟩
  · intro hall q hq
    obtain ⟨r, hr, hc⟩ := (mem_all_entries_qrow stds q).mp hq
    have h3 := (max3_lt_iff r threshold).mp (hall r hr)
    rcases hc with rfl | rfl | rfl
    · exact h3.1
    · exact h3.2.1
    · exact h3.2.2

/-- `np.nanmax(xs) >= t` holds exactly when some finite entry is `≥ t`. -/
lemma fge_nanmax_eq_true_iff (t : ℚ) (xs : List FVal) :
    fge (nanmax xs) t = true ↔ ∃ q : ℚ, some q ∈ xs ∧ t ≤ q := by
  rw [← Bool.not_eq_false, fge_nanmax_eq_false_iff]
  push_neg
  simp only [not_lt]

/-- A structure whose uncertainty rows are all zero passes the bound
check. -/
lemma in_bound_of_zero_stds {n : ℕ} (s : Structure n)
    (h : ∀ i, s.stds i = (some 0, some 0, some 0)) :
    is_std_in_bound_struct s = (true, []) := by
  have hfge : fge (nanmax (all_entries (List.ofFn s.stds))) threshold
      = false := by
    rw [fge_nanmax_eq_false_iff]
    intro q hq
    obtain ⟨l, hl, hql⟩ := List.mem_flatten.mp hq
    obtain ⟨r, hr, rfl⟩ := List.mem_map.mp hl
    obtain ⟨i, rfl⟩ := Set.mem_range.mp ((List.mem_ofFn _ _).mp hr)
    rw [h i] at hql
    simp only [row_list, List.mem_cons, List.not_mem_nil, or_false,
      Option.some.injEq, or_self] at hql
    rw [hql, threshold]
    norm_num
  show is_std_in_bound (List.ofFn s.stds) = (true, [])
  rw [is_std_in_bound, hfge]
  simp

/-- In the zero-force scenario one loop iteration is an Integrate
transition that preserves the rest configuration. -/
lemma zero_step (st : OTFState 2 Unit) (h : rest_inv st) :
    rest_inv (otf_step zero_surrogate (1/10000) st)
    ∧ (otf_step zero_surrogate (1/10000) st).curr_step = st.curr_step + 1 := by
  obtain ⟨hpos, hprev, hspec, hmass, hor⟩ := h
  have hbound : is_std_in_bound_struct
      (predict_on_structure zero_surrogate st.gp st.struc) = (true, []) :=
    in_bound_of_zero_stds _ (fun i => rfl)
  have hstep : otf_step zero_surrogate (1/10000) st
      = { st with
          struc := update_positions (1/10000)
            (predict_on_structure zero_surrogate st.gp st.struc),
          curr_step := st.curr_step + 1 } := by
    rw [otf_step, hbound]
    simp
  rw [hstep]
  refine ⟨⟨?_, ?_, hspec, hmass, hor⟩, rfl⟩
  · intro i
    show vadd (vsub (vscale 2 (st.struc.positions i))
        (st.struc.prev_positions i))
        (vdivs (vscale ((1/10000 : ℚ) ^ 2) vzero)
          (st.struc.mass_dict (st.struc.species i)))
      = init_positions i
    rw [hpos i, hprev i]
    exact verlet_fix (init_positions i) ((1/10000 : ℚ) ^ 2)
      (st.struc.mass_dict (st.struc.species i))
  · intro i
    show st.struc.positions i = init_positions i
    exact hpos i

/-- In the zero-force scenario the loop only integrates: the rest
configuration is kept and the step counter climbs to (at most) the step
budget `5`. -/
lemma zero_loop :
    ∀ (fuel : ℕ) (st : OTFState 2 Unit), rest_inv st → st.curr_step ≤ 5 →
      rest_inv (run_loop zero_surrogate (1/10000) 5 fuel st)
      ∧ (run_loop zero_surrogate (1/10000) 5 fuel st).curr_step
          = min 5 (st.curr_step + fuel) := by
  intro fuel
  induction fuel with
  | zero =>
    intro st h hle
    exact ⟨h, by show st.curr_step = _ ; omega⟩
  | succ fuel ih =>
    intro st h hle
    by_cases hlt : st.curr_step < 5
    · rw [run_loop, if_pos hlt]
      obtain ⟨hinv, hstep⟩ := zero_step st h
      obtain ⟨hi, hc⟩ := ih (otf_step zero_surrogate (1/10000) st) hinv
        (by omega)
      exact ⟨hi, by rw [hc, hstep]; omega⟩
    · rw [run_loop, if_neg hlt]
      exact ⟨h, by omega⟩

/-- If every prediction fails the uncertainty check, each loop iteration
is a Correct transition: `curr_step` is frozen and every unit of fuel
spends one more oracle query. -/
lemma always_correct_loop {n : ℕ} {G : Type} (C : Collab n G) (dt : ℚ)
    (Nsteps : ℕ)
    (hstd : ∀ g s,
      (is_std_in_bound_struct (predict_on_structure C g s)).1 = false) :
    ∀ (fuel : ℕ) (st : OTFState n G), st.curr_step < Nsteps →
      (run_loop C dt Nsteps fuel st).curr_step = st.curr_step
      ∧ (run_loop C dt Nsteps fuel st).nOracle = st.nOracle + fuel := by
  intro fuel
  induction fuel with
  | zero => intro st hlt; exact ⟨rfl, rfl⟩
  | succ fuel ih =>
    intro st hlt
    rw [run_loop, if_pos hlt]
    have hstep : otf_step C dt st
        = run_and_train C
            { st with struc := predict_on_structure C st.gp st.struc } := by
      rw [otf_step, hstd st.gp st.struc]
      simp
    rw [hstep]
    obtain ⟨hc, ho⟩ := ih
      (run_and_train C
        { st with struc := predict_on_structure C st.gp st.struc })
      hlt
    refine ⟨hc, ?_⟩
    rw [ho]
    show st.nOracle + 1 + fuel = st.nOracle + (fuel + 1)
    omega

/-- The constant-`1.0` surrogate always fails the uncertainty check. -/
lemma high_surrogate_out_of_bound :
    ∀ (g : Unit) (s : Structure 2),
      (is_std_in_bound_struct (predict_on_structure high_surrogate g s)).1
        = false := by
  intro g s
  have hfge : fge (nanmax (all_entries
      (List.ofFn (predict_on_structure high_surrogate g s).stds))) threshold
      = true := by
    rw [fge_nanmax_eq_true_iff]
    refine ⟨1, ?_, by rw [threshold]; norm_num⟩
    apply List.mem_flatten.mpr
    refine ⟨row_list ((predict_on_structure high_surrogate g s).stds 0),
      ?_, ?_⟩
    · exact List.mem_map.mpr
        ⟨_, (List.mem_ofFn _ _).mpr (Set.mem_range.mpr ⟨0, rfl⟩), rfl⟩
    · show some 1 ∈ row_list ((some 1 : FVal), some 1, some 1)
      simp [row_list]
  show (is_std_in_bound
      (List.ofFn (predict_on_structure high_surrogate g s).stds)).1 = false
  rw [is_std_in_bound, hfge]
  simp

/-! ## Claim theorems -/

/-- C4: the integrator's position update applies the Störmer–Verlet
formula to every atom `i` and component `j`: the new position equals
`2·positions[i] − prev_positions[i] + dt²·forces[i]/mass(species[i])`;
after the update `prev_positions[i]` equals the value `positions[i]` held
immediately before the call, while `species`, `forces`, `stds` and the
mass mapping are not modified; and the `flare/md.py` variant of the update
computes the same new positions. -/
theorem update_positions_verlet {n : ℕ} (dt : ℚ) (s : Structure n) :
    (∀ (i : Fin n) (j : Fin 3),
      comp ((update_positions dt s).positions i) j
        = 2 * comp (s.positions i) j - comp (s.prev_positions i) j
          + dt ^ 2 * comp (s.forces i) j / s.mass_dict (s.species i))
    ∧ (∀ i, (update_positions dt s).prev_positions i = s.positions i)
    ∧ (update_positions dt s).species = s.species
    ∧ (update_positions dt s).forces = s.forces
    ∧ (update_positions dt s).stds = s.stds
    ∧ (update_positions dt s).mass_dict = s.mass_dict
    ∧ ∀ i, md_update_positions dt s i = (update_positions dt s).positions i := by
  refine ⟨?_, fun i => rfl, rfl, rfl, rfl, rfl, fun i => rfl⟩
  intro i j
  fin_cases j <;>
    simp only [update_positions, comp, vadd, vsub, vscale, vdivs]

/-- C5: zero force and zero initial velocity (`prev_positions` equal to
`positions`) leave every position unchanged, for any timestep.  The mass
hypothesis records that in floating point `0.0/mass` is only harmless for
a nonzero mass; over `ℚ` the conclusion is insensitive to it. -/
theorem update_positions_rest {n : ℕ} (dt : ℚ) (s : Structure n)
    (hf : ∀ i, s.forces i = vzero)
    (hp : ∀ i, s.prev_positions i = s.positions i)
    (_hm : ∀ i, s.mass_dict (s.species i) ≠ 0) :
    ∀ i, (update_positions dt s).positions i = s.positions i := by
  intro i
  show vadd (vsub (vscale 2 (s.positions i)) (s.prev_positions i))
      (vdivs (vscale (dt ^ 2) (s.forces i)) (s.mass_dict (s.species i)))
    = s.positions i
  rw [hf i, hp i]
  exact verlet_fix (s.positions i) (dt ^ 2) (s.mass_dict (s.species i))

/-- C8: `calculate_temperature` returns central-difference velocities
`(new_pos − prev_positions)/(2·dt)` for every atom, kinetic energy
`Σ_i Σ_j 0.5·massᵢ·v_ij²`, and (whenever the equipartition denominator is
nonzero, i.e. `3·noa − 3 ≠ 0`) temperature `2·KE/((3·noa − 3)·k_B)` with
`k_B = 0.0000861733034`; being a pure function of its arguments, it does
not modify the structure. -/
theorem calculate_temperature_spec {n : ℕ} (new_pos : Fin n → Vec3)
    (s : Structure n) (dt : ℚ) (noa : ℕ) (h : (3 : ℚ) * noa - 3 ≠ 0) :
    (∀ i, (calculate_temperature new_pos s dt noa).2.2 i
        = vdivs (vsub (new_pos i) (s.prev_positions i)) (2 * dt))
    ∧ (calculate_temperature new_pos s dt noa).1
        = ∑ i : Fin n, ∑ j : Fin 3,
            0.5 * s.mass_dict (s.species i)
              * comp ((calculate_temperature new_pos s dt noa).2.2 i) j ^ 2
    ∧ (calculate_temperature new_pos s dt noa).2.1
        = some (2 * (calculate_temperature new_pos s dt noa).1
            / ((3 * (noa : ℚ) - 3) * kb)) := by
  refine ⟨fun i => rfl, ?_, ?_⟩
  · show (List.ofFn fun i =>
        atom_KE (s.mass_dict (s.species i))
          (vdivs (vsub (new_pos i) (s.prev_positions i)) (2 * dt))).sum = _
    rw [List.sum_ofFn]
    refine Finset.sum_congr rfl ?_
    intro i _
    rw [Fin.sum_univ_three]
    have hv : (calculate_temperature new_pos s dt noa).2.2 i
        = vdivs (vsub (new_pos i) (s.prev_positions i)) (2 * dt) := rfl
    simp only [atom_KE, comp, hv]
    ring
  · show fdiv (2 * (calculate_temperature new_pos s dt noa).1)
        ((3 * (noa : ℚ) - 3) * kb) = _
    rw [fdiv, if_neg]
    refine mul_ne_zero h ?_
    rw [kb]
    norm_num

/-- C8 witness: the theorem applied to a concrete 2-atom structure. -/
theorem calculate_temperature_spec_witness :
    (3 : ℚ) * (2 : ℕ) - 3 ≠ 0
    ∧ ((∀ i, (calculate_temperature (fun _ => vzero) witness_struc 1 2).2.2 i
          = vdivs (vsub vzero (witness_struc.prev_positions i)) (2 * 1))
       ∧ (calculate_temperature (fun _ => vzero) witness_struc 1 2).1
           = ∑ i : Fin 2, ∑ j : Fin 3,
               0.5 * witness_struc.mass_dict (witness_struc.species i)
                 * comp ((calculate_temperature (fun _ => vzero)
                     witness_struc 1 2).2.2 i) j ^ 2
       ∧ (calculate_temperature (fun _ => vzero) witness_struc 1 2).2.1
           = some (2 * (calculate_temperature (fun _ => vzero)
               witness_struc 1 2).1 / ((3 * ((2 : ℕ) : ℚ) - 3) * kb))) :=
  ⟨by norm_num,
   calculate_temperature_spec (fun _ => vzero) witness_struc 1 2 (by norm_num)⟩

/-- C10: for a one-atom system (`noa = 1`) the equipartition denominator
`(3·noa − 3)·k_B` is exactly zero and the unguarded float division makes
the temperature non-finite (`none` in the float model) on every input,
while the kinetic energy and the velocities are still computed and
returned. -/
theorem calculate_temperature_one_atom {n : ℕ} (new_pos : Fin n → Vec3)
    (s : Structure n) (dt : ℚ) :
    (3 * ((1 : ℕ) : ℚ) - 3) * kb = 0
    ∧ (calculate_temperature new_pos s dt 1).2.1 = none
    ∧ (calculate_temperature new_pos s dt 1).1
        = (List.ofFn fun i =>
            atom_KE (s.mass_dict (s.species i))
              (vdivs (vsub (new_pos i) (s.prev_positions i)) (2 * dt))).sum
    ∧ ∀ i, (calculate_temperature new_pos s dt 1).2.2 i
        = vdivs (vsub (new_pos i) (s.prev_positions i)) (2 * dt) := by
  have hden : (3 * ((1 : ℕ) : ℚ) - 3) * kb = 0 := by norm_num
  refine ⟨hden, ?_, rfl, fun i => rfl⟩
  show fdiv (2 * (calculate_temperature new_pos s dt 1).1)
      ((3 * ((1 : ℕ) : ℚ) - 3) * kb) = none
  rw [fdiv, if_pos hden]

/-- C3: the step counter is advanced only by an Integrate transition.  A
Correct transition — `run_and_train`, i.e. the oracle query, the
training-set update and the retraining — leaves `curr_step` unchanged,
and one loop iteration increments `curr_step` exactly when the
uncertainty check on the freshly predicted structure passes. -/
theorem correct_keeps_clock {n : ℕ} {G : Type} (C : Collab n G) (dt : ℚ)
    (st : OTFState n G) :
    (run_and_train C st).curr_step = st.curr_step
    ∧ (otf_step C dt st).curr_step =
        (if (is_std_in_bound_struct (predict_on_structure C st.gp st.struc)).1
         then st.curr_step + 1 else st.curr_step) := by
  refine ⟨rfl, ?_⟩
  show (if (is_std_in_bound_struct (predict_on_structure C st.gp st.struc)).1
      then _ else run_and_train C _).curr_step = _
  by_cases h :
      (is_std_in_bound_struct (predict_on_structure C st.gp st.struc)).1
  · rw [if_pos h, if_pos h]
  · rw [if_neg h, if_neg h]
    rfl

/-- C9: `parse_dft_input` fails exactly when the cell block, the positions
block or the atom count cannot be located, with a distinct diagnostic for
each of the three missing pieces; on failure no parse result is produced
(the error value carries no payload, so no run state can be built from
it); and with the source's locator — whose scanning loop is the
unimplemented `TODO` and locates nothing — every input fails up front, at
the cell assert, before any run state exists. -/
theorem parse_dft_input_diagnostics :
    (∀ ci pi na : Option ℕ,
      (∃ e, check_input_asserts ci pi na = Except.error e)
        ↔ (ci = none ∨ pi = none ∨ na = none))
    ∧ (∀ pi na, check_input_asserts none pi na
        = Except.error "Failed to find cell in input file")
    ∧ (∀ ci na, ci ≠ none → check_input_asserts ci none na
        = Except.error "Failed to find positions in input")
    ∧ (∀ ci pi, ci ≠ none → pi ≠ none → check_input_asserts ci pi none
        = Except.error "Failed to find number of atoms in input")
    ∧ (∀ lines, parse_dft_input lines
        = Except.error "Failed to find cell in input file")
    ∧ ∀ (n : ℕ) (G : Type) (mk : Unit → OTFState n G) (lines : List String),
        otf_init lines mk
          = Except.error "Failed to find cell in input file" := by
  have hparse : ∀ lines, parse_dft_input lines
      = Except.error "Failed to find cell in input file" := by
    intro lines
    show check_input_asserts (locate_input lines).1 (locate_input lines).2.1
        (locate_input lines).2.2 = _
    rw [locate_input_cell_none lines, check_input_asserts, if_pos rfl]
  refine ⟨?_, fun pi na => rfl, ?_, ?_, hparse, ?_⟩
  · intro ci pi na
    cases ci <;> cases pi <;> cases na <;>
      simp [check_input_asserts]
  · intro ci na hci
    cases ci with
    | none => exact absurd rfl hci
    | some c => rfl
  · intro ci pi hci hpi
    cases ci with
    | none => exact absurd rfl hci
    | some c =>
      cases pi with
      | none => exact absurd rfl hpi
      | some p => rfl
  · intro n G mk lines
    show (parse_dft_input lines).map mk = _
    rw [hparse lines]
    rfl

/-- C9 witness: each diagnostic at a concrete input, and a concrete
two-line template failing at the cell assert. -/
theorem parse_dft_input_diagnostics_witness :
    (some 3 : Option ℕ) ≠ none
    ∧ check_input_asserts (some 3) none none
        = Except.error "Failed to find positions in input"
    ∧ check_input_asserts (some 3) (some 5) none
        = Except.error "Failed to find number of atoms in input"
    ∧ parse_dft_input ["CELL_PARAMETERS", "ATOMIC_POSITIONS"]
        = Except.error "Failed to find cell in input file" :=
  ⟨by simp,
   parse_dft_input_diagnostics.2.2.1 (some 3) none (by simp),
   parse_dft_input_diagnostics.2.2.2.1 (some 3) (some 5) (by simp) (by simp),
   parse_dft_input_diagnostics.2.2.2.2.1 ["CELL_PARAMETERS", "ATOMIC_POSITIONS"]⟩

/-- C5 witness: the theorem applied to the concrete resting 2-atom
structure, at atom 0 and `dt = 7`. -/
theorem update_positions_rest_witness :
    (update_positions 7 init_struc).positions 0 = init_struc.positions 0 :=
  update_positions_rest 7 init_struc (fun _ => rfl) (fun _ => rfl)
    (fun _ => one_ne_zero) 0

/-- C1: on a (nonempty, NaN-free) `stds` array of `N` atoms by 3
components, `is_std_in_bound` returns `(True, [])` iff the maximum entry
over all atoms and components is strictly below the trust threshold;
otherwise it returns `(False, P)` with `P` exactly the ascending list of
the indices of atoms whose own per-component maximum is `≥` the
threshold (the filtered index range).  The function is pure — the Python
method only reads `stds` — so the structure is untouched. -/
theorem is_std_in_bound_correct (stds : List Vec3) (_hne : stds ≠ []) :
    (is_std_in_bound (stds.map qrow) = (true, [])
        ↔ ∀ r ∈ stds, max3 r < threshold)
    ∧ ((¬ ∀ r ∈ stds, max3 r < threshold) →
        is_std_in_bound (stds.map qrow)
          = (false, (List.range stds.length).filter
              fun i => decide (threshold ≤ max3 (stds.getD i vzero)))) := by
  cases hfge : fge (nanmax (all_entries (stds.map qrow))) threshold with
  | false =>
    have hall := (fge_nanmax_qrow_iff stds).mp hfge
    have heq : is_std_in_bound (stds.map qrow) = (true, []) := by
      rw [is_std_in_bound, hfge]
      simp
    exact ⟨iff_of_true heq hall, fun hnot => absurd hall hnot⟩
  | true =>
    have hnotall : ¬ ∀ r ∈ stds, max3 r < threshold := by
      intro hall
      have := (fge_nanmax_qrow_iff stds).mpr hall
      rw [hfge] at this
      exact Bool.noConfusion this
    have heq : is_std_in_bound (stds.map qrow)
        = (false, problem_atoms_aux 0 (stds.map qrow)) := by
      rw [is_std_in_bound, hfge]
      simp
    constructor
    · rw [heq]
      constructor
      · intro h
        simp at h
      · intro hall
        exact absurd hall hnotall
    · intro _
      rw [heq, problem_atoms_aux_zero, List.length_map]
      refine congrArg (Prod.mk false) ?_
      refine List.filter_congr ?_
      intro k hk
      rw [getD_map_qrow stds k (List.mem_range.mp hk), npmax_qrow]
      rfl

/-- C1 witness: the theorem at a concrete 2-atom array with one problem
atom (row 0, whose third component is `0.2 ≥ 0.1`). -/
theorem is_std_in_bound_correct_witness :
    (is_std_in_bound ([((0 : ℚ), 0, 1/5), (1/100, 0, 0)].map qrow)
        = (true, [])
      ↔ ∀ r ∈ [((0 : ℚ), 0, 1/5), (1/100, 0, 0)], max3 r < threshold)
    ∧ ((¬ ∀ r ∈ [((0 : ℚ), 0, 1/5), (1/100, 0, 0)], max3 r < threshold) →
        is_std_in_bound ([((0 : ℚ), 0, 1/5), (1/100, 0, 0)].map qrow)
          = (false, (List.range
              ([((0 : ℚ), 0, 1/5), (1/100, 0, 0)] : List Vec3).length).filter
              fun i => decide (threshold
                ≤ max3 ([((0 : ℚ), 0, 1/5), (1/100, 0, 0)].getD i vzero)))) :=
  is_std_in_bound_correct [((0 : ℚ), 0, 1/5), (1/100, 0, 0)] (by simp)

/-- C2 counterexample: the claim fails on the code.  An atom whose first
uncertainty entry is NaN and whose other entries are `0` yields
`(True, [])` — the NaN is silently skipped by `np.nanmax`, no correction
is forced and the atom is not reported; likewise an all-NaN array yields
`(True, [])`, i.e. a trusted Integrate transition. -/
theorem is_std_in_bound_nan_counterexample :
    is_std_in_bound [(none, some 0, some 0)] = (true, [])
    ∧ is_std_in_bound [((none : FVal), none, none)] = (true, []) := by
  constructor
  · have hfge : fge (nanmax (all_entries [(none, some 0, some 0)])) threshold
        = false := by
      rw [fge_nanmax_eq_false_iff]
      intro q hq
      simp only [all_entries, List.map_cons, List.map_nil, row_list,
        List.flatten_cons, List.flatten_nil, List.append_nil, List.mem_cons,
        List.not_mem_nil, or_false, Option.some.injEq, reduceCtorEq,
        false_or, or_self] at hq
      rw [hq, threshold]
      norm_num
    rw [is_std_in_bound, hfge]
    simp
  · have hfge : fge (nanmax (all_entries [((none : FVal), none, none)]))
        threshold = false := by
      rw [fge_nanmax_eq_false_iff]
      intro q hq
      simp [all_entries, row_list] at hq
    rw [is_std_in_bound, hfge]
    simp

/-- C2 amended: NaN uncertainty entries are silently skipped, not treated
as out of bound.  `np.nanmax` ignores NaN, so if every finite entry is
below the threshold — in particular if every entry is NaN —
`is_std_in_bound` returns `(True, [])` and the run proceeds to a trusted
Integrate transition; and because the per-atom `np.max` propagates NaN
(which then compares false against the threshold), an atom whose row
maximum is NaN is never put in the problem-atom list even when a
correction is triggered by some other atom. -/
theorem is_std_in_bound_nan_skipped :
    (∀ stds : List FVal3,
      (∀ r ∈ stds, ∀ q : ℚ, some q ∈ row_list r → q < threshold) →
      is_std_in_bound stds = (true, []))
    ∧ ∀ (stds : List FVal3) (i : ℕ),
        npmax (row_list (stds.getD i (none, none, none))) = none →
        i ∉ (is_std_in_bound stds).2 := by
  constructor
  · intro stds hall
    have hfge : fge (nanmax (all_entries stds)) threshold = false := by
      rw [fge_nanmax_eq_false_iff]
      intro q hq
      obtain ⟨l, hl, hql⟩ := List.mem_flatten.mp hq
      obtain ⟨r, hr, rfl⟩ := List.mem_map.mp hl
      exact hall r hr q hql
    rw [is_std_in_bound, hfge]
    simp
  · intro stds i hnone
    rw [is_std_in_bound]
    by_cases hfge : fge (nanmax (all_entries stds)) threshold = true
    · rw [if_pos hfge]
      show i ∉ problem_atoms_aux 0 stds
      rw [problem_atoms_aux_zero]
      intro hmem
      have hp := (List.mem_filter.mp hmem).2
      rw [hnone] at hp
      exact Bool.noConfusion hp
    · rw [if_neg hfge]
      exact List.not_mem_nil i

/-- C2 witness: a NaN-plus-small-finite array passes the check, and an
all-NaN atom (index 0) stays out of the problem list even when atom 1
forces a correction. -/
theorem is_std_in_bound_nan_skipped_witness :
    is_std_in_bound [((none : FVal), none, none), (none, some (1/100), none)]
        = (true, [])
    ∧ 0 ∉ (is_std_in_bound
        [((none : FVal), none, none), (some 1, some 1, some 1)]).2 :=
  ⟨is_std_in_bound_nan_skipped.1 _ (by
      intro r hr q hq
      simp only [List.mem_cons, List.not_mem_nil, or_false] at hr
      rcases hr with rfl | rfl
      · simp [row_list] at hq
      · simp only [row_list, List.mem_cons, List.not_mem_nil, or_false,
          Option.some.injEq, reduceCtorEq, false_or, or_false] at hq
        rw [hq, threshold]
        norm_num),
   is_std_in_bound_nan_skipped.2 _ 0 rfl⟩

/-- C6: end-to-end zero-uncertainty scenario — 2 atoms, `dt = 0.0001`,
`total_steps = 5`, threshold `0.1`, `prev_positions` equal to `positions`,
a surrogate always reporting `std = 0` and zero force.  `run` performs the
one mandatory Bootstrap oracle-query-and-retrain before any prediction
(by construction `run` first calls `run_and_train`, and the final oracle
count is exactly 1, so no further Correct transition ever happens), then
completes exactly 5 Integrate transitions — for every fuel `≥ 5` the loop
has exited with `curr_step = 5`, i.e. the run terminates — and the final
positions equal the initial positions. -/
theorem otf_zero_std_run (fuel : ℕ) (hfuel : 5 ≤ fuel) :
    (run zero_surrogate (1/10000) 5 fuel init_state).curr_step = 5
    ∧ (run zero_surrogate (1/10000) 5 fuel init_state).nOracle = 1
    ∧ ∀ i, (run zero_surrogate (1/10000) 5 fuel init_state).struc.positions i
        = init_positions i := by
  have hboot : rest_inv (run_and_train zero_surrogate init_state) :=
    ⟨fun i => rfl, fun i => rfl, rfl, rfl, rfl⟩
  obtain ⟨hinv, hstep⟩ := zero_loop fuel
    (run_and_train zero_surrogate init_state) hboot (Nat.zero_le 5)
  refine ⟨?_, hinv.2.2.2.2, hinv.1⟩
  show (run_loop zero_surrogate (1/10000) 5 fuel
      (run_and_train zero_surrogate init_state)).curr_step = 5
  rw [hstep]
  have h0 : (run_and_train zero_surrogate init_state).curr_step = 0 := rfl
  rw [h0]
  omega

/-- C6 witness: the theorem at fuel 5. -/
theorem otf_zero_std_run_witness :
    (run zero_surrogate (1/10000) 5 5 init_state).curr_step = 5
    ∧ (run zero_surrogate (1/10000) 5 5 init_state).nOracle = 1
    ∧ ∀ i, (run zero_surrogate (1/10000) 5 5 init_state).struc.positions i
        = init_positions i :=
  otf_zero_std_run 5 (by norm_num)

/-- C7: if every prediction reports uncertainty at or above the threshold
(so the bound check always fails), then from any reachable state still
inside the step budget, `run` leaves `curr_step` exactly where it was —
in particular it never advances past 0 from the initial state — while
performing one oracle-query-and-retrain (Correct transition) per unit of
fuel on top of the bootstrap: the count grows without bound with the
fuel, so no maximum-corrections ceiling ever stops the loop. -/
theorem otf_high_std_stuck {n : ℕ} {G : Type} (C : Collab n G) (dt : ℚ)
    (Nsteps : ℕ)
    (hstd : ∀ g s,
      (is_std_in_bound_struct (predict_on_structure C g s)).1 = false)
    (st : OTFState n G) (hlt : st.curr_step < Nsteps) (fuel : ℕ) :
    (run C dt Nsteps fuel st).curr_step = st.curr_step
    ∧ (run C dt Nsteps fuel st).nOracle = st.nOracle + 1 + fuel := by
  obtain ⟨hc, ho⟩ := always_correct_loop C dt Nsteps hstd fuel
    (run_and_train C st) hlt
  exact ⟨hc, ho⟩

/-- C7 witness: the constant-`1.0` surrogate on the 2-atom system, 7 units
of fuel: the step counter is still 0 and 8 oracle queries (bootstrap plus
7 corrections) have been spent. -/
theorem otf_high_std_stuck_witness :
    (run high_surrogate (1/10000) 5 7 init_state).curr_step = 0
    ∧ (run high_surrogate (1/10000) 5 7 init_state).nOracle = 8 :=
  otf_high_std_stuck high_surrogate (1/10000) 5 high_surrogate_out_of_bound
    init_state (by decide) 7

end Flare


